import Mathlib

/-!
Verification of the tic-tac-toe websocket server.

The definitions below are a shallow embedding of the Python sources:
* `src/server/tictactoe_game.py` — the `TicTacToeGame` class (rules engine);
* `src/server/server_websocket.py` — the shared server state (`CLIENTS`,
  `GAMES`, `AVAILABLE_GAMES`) and its handlers.

Python dictionaries are embedded as association lists (insertion order is
preserved, keys are unique), the empty string cell `''` becomes `none`,
and the mark strings `'X'`/`'O'` become the inductive type `Piece`.
-/

/-- A player mark, `'X'` or `'O'` in the source. -/
inductive Piece
  | X
  | O
deriving DecidableEq, Repr, Fintype

/-- Python `'O' if self.turn == 'X' else 'X'` (tictactoe_game.py line 103). -/
def Piece.other : Piece → Piece
  | .X => .O
  | .O => .X

/-- One board cell: `''` (empty) is `none`, a mark is `some`. -/
abbrev Cell := Option Piece

/-- The 3x3 board `self.board` (a list of three lists of three cells). -/
abbrev Board := Fin 3 → Fin 3 → Cell

/-- The all-empty board built by `__init__`. -/
def emptyBoard : Board := fun _ _ => none

/-- Reading `self.board[y][x]` for integer coordinates; the source only reads the
board after its `0 <= y < 3 and 0 <= x < 3` bounds check, so out-of-bounds
reads never occur and are mapped to `none` here. -/
def cellAt (b : Board) (y x : Int) : Cell :=
  if h : 0 ≤ y ∧ y < 3 ∧ 0 ≤ x ∧ x < 3 then
    b ⟨y.toNat, by omega⟩ ⟨x.toNat, by omega⟩
  else none

/-- Assignment `self.board[y][x] = piece`: update the single cell at integer
coordinates `(y, x)`. -/
def setCell (b : Board) (y x : Int) (c : Cell) : Board :=
  fun i j => if (i : Nat) = y.toNat ∧ (j : Nat) = x.toNat then c else b i j

/-- One entry of `self.players`: `{'uuid': ..., 'name': ...}`. -/
structure PlayerInfo where
  uuid : String
  name : String
deriving DecidableEq, Repr

/-- Field `self.status`: `'waiting'`, `'active'` or `'finished'`. -/
inductive GameStatus
  | waiting
  | active
  | finished
deriving DecidableEq, Repr

/-- The `TicTacToeGame` object state (tictactoe_game.py lines 2-11). -/
structure TicTacToeGame where
  game_id : String
  board : Board
  playerX : Option PlayerInfo
  playerO : Option PlayerInfo
  turn : Piece
  status : GameStatus
  winner : Option Piece
deriving DecidableEq

/-- Constructor `TicTacToeGame.__init__(game_id, player1_uuid, player1_name)`. -/
def TicTacToeGame.init (gid u n : String) : TicTacToeGame :=
  { game_id := gid
    board := emptyBoard
    playerX := some ⟨u, n⟩
    playerO := none
    turn := .X
    status := .waiting
    winner := none }

/-- Method `TicTacToeGame.add_player2` (lines 13-21): fills the `'O'` slot and
activates the game when the slot is free, otherwise returns `False`
and changes nothing. -/
def TicTacToeGame.add_player2 (g : TicTacToeGame) (u2 n2 : String) :
    Bool × TicTacToeGame :=
  match g.playerO with
  | none => (true, { g with playerO := some ⟨u2, n2⟩, status := .active })
  | some _ => (false, g)

/-- Method `TicTacToeGame.get_player_piece` (lines 38-44). -/
def TicTacToeGame.get_player_piece (g : TicTacToeGame) (u : String) : Option Piece :=
  if g.playerX.any (fun p => p.uuid = u) then some .X
  else if g.playerO.any (fun p => p.uuid = u) then some .O
  else none

/-- Method `TicTacToeGame.check_winner` (lines 114-130): rows `i = 0,1,2`, then
columns `j = 0,1,2`, then the two diagonals; the first line whose three
cells agree and are nonempty decides. -/
def check_winner (b : Board) : Option Piece :=
  if b 0 0 = b 0 1 ∧ b 0 1 = b 0 2 ∧ b 0 2 ≠ none then b 0 0
  else if b 1 0 = b 1 1 ∧ b 1 1 = b 1 2 ∧ b 1 2 ≠ none then b 1 0
  else if b 2 0 = b 2 1 ∧ b 2 1 = b 2 2 ∧ b 2 2 ≠ none then b 2 0
  else if b 0 0 = b 1 0 ∧ b 1 0 = b 2 0 ∧ b 2 0 ≠ none then b 0 0
  else if b 0 1 = b 1 1 ∧ b 1 1 = b 2 1 ∧ b 2 1 ≠ none then b 0 1
  else if b 0 2 = b 1 2 ∧ b 1 2 = b 2 2 ∧ b 2 2 ≠ none then b 0 2
  else if b 0 0 = b 1 1 ∧ b 1 1 = b 2 2 ∧ b 2 2 ≠ none then b 0 0
  else if b 0 2 = b 1 1 ∧ b 1 1 = b 2 0 ∧ b 2 0 ≠ none then b 0 2
  else none

/-- Python `all(self.board[i][j] != '' for i in range(3) for j in range(3))`
(line 90). -/
def board_full (b : Board) : Prop := ∀ i j, b i j ≠ none

instance (b : Board) : Decidable (board_full b) := by
  unfold board_full; infer_instance

/-- The typed move rejections of `make_move` (its `reason` strings). -/
inductive MoveReason
  | notActive        -- "Game is not active"
  | notAPlayer       -- "Player not in game"
  | outOfTurn        -- "Not your turn"
  | outOfBounds      -- "Invalid position"
  | cellOccupied     -- "Position already occupied"
deriving DecidableEq, Repr

/-- The fields of a `{"success": True, ...}` response of `make_move`. -/
structure MoveSuccess where
  board : Board
  next_turn : Option Piece
  game_over : Bool
  winner : Option Piece
  is_tie : Bool
deriving DecidableEq

/-- The dictionary returned by `make_move`. -/
inductive MoveResult
  | failure (reason : MoveReason)
  | success (r : MoveSuccess)
deriving DecidableEq

/-- Method `TicTacToeGame.make_move` (lines 46-112), returning the response
dictionary together with the updated object state. -/
def make_move (g : TicTacToeGame) (u : String) (y x : Int) :
    MoveResult × TicTacToeGame :=
  if g.status ≠ .active then (.failure .notActive, g)
  else
    match g.get_player_piece u with
    | none => (.failure .notAPlayer, g)
    | some p =>
      if p ≠ g.turn then (.failure .outOfTurn, g)
      else if 0 ≤ y ∧ y < 3 ∧ 0 ≤ x ∧ x < 3 then
        if cellAt g.board y x ≠ none then (.failure .cellOccupied, g)
        else
          let b := setCell g.board y x (some p)
          match check_winner b with
          | some w =>
            (.success ⟨b, none, true, some w, false⟩,
             { g with board := b, winner := some w, status := .finished })
          | none =>
            if board_full b then
              (.success ⟨b, none, true, none, true⟩,
               { g with board := b, status := .finished })
            else
              (.success ⟨b, some g.turn.other, false, none, false⟩,
               { g with board := b, turn := g.turn.other })
      else (.failure .outOfBounds, g)

/-! ### Reference (spec-side) definitions for the verdict

These follow the words of the specification: "a mark wins if it occupies
all three cells of any row, any column, or either diagonal", checked rows
first, then columns, then diagonals; a draw is all nine cells filled with
no winning line. They are compared against `check_winner` above. -/

/-- The eight winning lines, in the spec's evaluation order:
rows first, then columns, then the two diagonals. -/
def winningLines : List (List (Fin 3 × Fin 3)) :=
  [[(0, 0), (0, 1), (0, 2)],
   [(1, 0), (1, 1), (1, 2)],
   [(2, 0), (2, 1), (2, 2)],
   [(0, 0), (1, 0), (2, 0)],
   [(0, 1), (1, 1), (2, 1)],
   [(0, 2), (1, 2), (2, 2)],
   [(0, 0), (1, 1), (2, 2)],
   [(0, 2), (1, 1), (2, 0)]]

/-- The mark occupying every cell of the line, if any. -/
def lineOwner (b : Board) (l : List (Fin 3 × Fin 3)) : Option Piece :=
  if l.all (fun c => b c.1 c.2 = some Piece.X) then some .X
  else if l.all (fun c => b c.1 c.2 = some Piece.O) then some .O
  else none

/-- First line of the list owned by a mark, scanning in order. -/
def firstWin (b : Board) : List (List (Fin 3 × Fin 3)) → Option Piece
  | [] => none
  | l :: ls =>
    match lineOwner b l with
    | some p => some p
    | none => firstWin b ls

/-- The spec's verdict: the owner of the first winning line, scanning rows
first, then columns, then the diagonals. -/
def referenceVerdict (b : Board) : Option Piece := firstWin b winningLines

/-- Helper: `lineOwner` as a function of the three cell values alone. -/
def lineOwner3 (u v w : Cell) : Option Piece :=
  if [u, v, w].all (fun c => c = some Piece.X) then some .X
  else if [u, v, w].all (fun c => c = some Piece.O) then some .O
  else none

theorem lineOwner3_eq (u v w : Cell) :
    lineOwner3 u v w = if u = v ∧ v = w ∧ w ≠ none then u else none := by
  revert u v w
  decide

theorem lineOwner_eq (b : Board) (i1 j1 i2 j2 i3 j3 : Fin 3) :
    lineOwner b [(i1, j1), (i2, j2), (i3, j3)] =
      if b i1 j1 = b i2 j2 ∧ b i2 j2 = b i3 j3 ∧ b i3 j3 ≠ none
      then b i1 j1 else none := by
  have h : lineOwner b [(i1, j1), (i2, j2), (i3, j3)] =
      lineOwner3 (b i1 j1) (b i2 j2) (b i3 j3) := rfl
  rw [h, lineOwner3_eq]

theorem lineOwner_pos {b : Board} {i1 j1 i2 j2 i3 j3 : Fin 3} {p : Piece}
    (h : b i1 j1 = b i2 j2 ∧ b i2 j2 = b i3 j3 ∧ b i3 j3 ≠ none)
    (hp : b i1 j1 = some p) :
    lineOwner b [(i1, j1), (i2, j2), (i3, j3)] = some p := by
  rw [lineOwner_eq, if_pos h, hp]

theorem lineOwner_neg {b : Board} {i1 j1 i2 j2 i3 j3 : Fin 3}
    (h : ¬(b i1 j1 = b i2 j2 ∧ b i2 j2 = b i3 j3 ∧ b i3 j3 ≠ none)) :
    lineOwner b [(i1, j1), (i2, j2), (i3, j3)] = none := by
  rw [lineOwner_eq, if_neg h]

theorem line_head_some {b : Board} {i1 j1 i2 j2 i3 j3 : Fin 3}
    (h : b i1 j1 = b i2 j2 ∧ b i2 j2 = b i3 j3 ∧ b i3 j3 ≠ none) :
    ∃ p, b i1 j1 = some p := by
  obtain ⟨e1, e2, hne⟩ := h
  rcases hv : b i3 j3 with _ | p
  · exact absurd hv hne
  · exact ⟨p, by rw [e1, e2, hv]⟩

theorem firstWin_cons_some {b : Board} {l : List (Fin 3 × Fin 3)} {p : Piece}
    (h : lineOwner b l = some p) (ls : List (List (Fin 3 × Fin 3))) :
    firstWin b (l :: ls) = some p := by
  rw [firstWin, h]

theorem firstWin_cons_none {b : Board} {l : List (Fin 3 × Fin 3)}
    (h : lineOwner b l = none) (ls : List (List (Fin 3 × Fin 3))) :
    firstWin b (l :: ls) = firstWin b ls := by
  rw [firstWin, h]

/-- The source's winner check agrees with the spec's reference verdict on
every board. -/
theorem check_winner_eq_ref (b : Board) :
    check_winner b = referenceVerdict b := by
  unfold check_winner referenceVerdict winningLines
  split_ifs with h1 h2 h3 h4 h5 h6 h7 h8
  · obtain ⟨p, hp⟩ := line_head_some h1
    rw [firstWin_cons_some (lineOwner_pos h1 hp), hp]
  · obtain ⟨p, hp⟩ := line_head_some h2
    rw [firstWin_cons_none (lineOwner_neg h1),
      firstWin_cons_some (lineOwner_pos h2 hp), hp]
  · obtain ⟨p, hp⟩ := line_head_some h3
    rw [firstWin_cons_none (lineOwner_neg h1),
      firstWin_cons_none (lineOwner_neg h2),
      firstWin_cons_some (lineOwner_pos h3 hp), hp]
  · obtain ⟨p, hp⟩ := line_head_some h4
    rw [firstWin_cons_none (lineOwner_neg h1),
      firstWin_cons_none (lineOwner_neg h2),
      firstWin_cons_none (lineOwner_neg h3),
      firstWin_cons_some (lineOwner_pos h4 hp), hp]
  · obtain ⟨p, hp⟩ := line_head_some h5
    rw [firstWin_cons_none (lineOwner_neg h1),
      firstWin_cons_none (lineOwner_neg h2),
      firstWin_cons_none (lineOwner_neg h3),
      firstWin_cons_none (lineOwner_neg h4),
      firstWin_cons_some (lineOwner_pos h5 hp), hp]
  · obtain ⟨p, hp⟩ := line_head_some h6
    rw [firstWin_cons_none (lineOwner_neg h1),
      firstWin_cons_none (lineOwner_neg h2),
      firstWin_cons_none (lineOwner_neg h3),
      firstWin_cons_none (lineOwner_neg h4),
      firstWin_cons_none (lineOwner_neg h5),
      firstWin_cons_some (lineOwner_pos h6 hp), hp]
  · obtain ⟨p, hp⟩ := line_head_some h7
    rw [firstWin_cons_none (lineOwner_neg h1),
      firstWin_cons_none (lineOwner_neg h2),
      firstWin_cons_none (lineOwner_neg h3),
      firstWin_cons_none (lineOwner_neg h4),
      firstWin_cons_none (lineOwner_neg h5),
      firstWin_cons_none (lineOwner_neg h6),
      firstWin_cons_some (lineOwner_pos h7 hp), hp]
  · obtain ⟨p, hp⟩ := line_head_some h8
    rw [firstWin_cons_none (lineOwner_neg h1),
      firstWin_cons_none (lineOwner_neg h2),
      firstWin_cons_none (lineOwner_neg h3),
      firstWin_cons_none (lineOwner_neg h4),
      firstWin_cons_none (lineOwner_neg h5),
      firstWin_cons_none (lineOwner_neg h6),
      firstWin_cons_none (lineOwner_neg h7),
      firstWin_cons_some (lineOwner_pos h8 hp), hp]
  · rw [firstWin_cons_none (lineOwner_neg h1),
      firstWin_cons_none (lineOwner_neg h2),
      firstWin_cons_none (lineOwner_neg h3),
      firstWin_cons_none (lineOwner_neg h4),
      firstWin_cons_none (lineOwner_neg h5),
      firstWin_cons_none (lineOwner_neg h6),
      firstWin_cons_none (lineOwner_neg h7),
      firstWin_cons_none (lineOwner_neg h8)]
    rfl

/-! ### Spec-side validation order for `make_move` -/

/-- The first failing validation, in the order the specification lists
them: active status, caller occupies a slot, the caller's slot has the
turn, coordinates within the 3x3 bounds, target cell empty. -/
def firstFailure (g : TicTacToeGame) (u : String) (y x : Int) :
    Option MoveReason :=
  if g.status ≠ .active then some .notActive
  else if g.get_player_piece u = none then some .notAPlayer
  else if g.get_player_piece u ≠ some g.turn then some .outOfTurn
  else if ¬(0 ≤ y ∧ y < 3 ∧ 0 ≤ x ∧ x < 3) then some .outOfBounds
  else if cellAt g.board y x ≠ none then some .cellOccupied
  else none

/-- Claim C1: `make_move` performs the five validations in exactly the
spec's order; whenever one fails it returns the corresponding typed
rejection and leaves the game (board included) completely unchanged, and
it fails only for those reasons. -/
theorem make_move_validation_order (g : TicTacToeGame) (u : String)
    (y x : Int) :
    (∀ r g', make_move g u y x = (.failure r, g') →
      g' = g ∧ firstFailure g u y x = some r) ∧
    (∀ r, firstFailure g u y x = some r →
      make_move g u y x = (.failure r, g)) := by
  unfold make_move firstFailure
  rcases hp : g.get_player_piece u with _ | p <;>
    simp only [hp] <;>
    split_ifs <;>
    simp_all <;>
    rcases hcw : check_winner (setCell g.board y x (some p)) with _ | w <;>
    simp_all

/-- A two-player demo game: Alice (`p1`, X) vs Bob (`p2`, O), active,
X to move, empty board. -/
def gameAB : TicTacToeGame :=
  { game_id := "g1"
    board := emptyBoard
    playerX := some ⟨"p1", "Alice"⟩
    playerO := some ⟨"p2", "Bob"⟩
    turn := .X
    status := .active
    winner := none }

/-- State `gameAB` with the target cell `(0,0)` already occupied by O. -/
def gameOcc : TicTacToeGame :=
  { gameAB with board := setCell emptyBoard 0 0 (some .O) }

theorem make_move_validation_order_witness :
    make_move gameOcc "p1" 0 0 = (.failure .cellOccupied, gameOcc) :=
  (make_move_validation_order gameOcc "p1" 0 0).2 .cellOccupied (by decide)

/-- Claim C2: the win/draw verdict used by `make_move` equals the
reference definition (rows first, then columns, then diagonals), and a
successful move reports a winner exactly per that reference and a tie
exactly when the board is full with no winning line. -/
theorem move_verdict_matches_reference (b : Board) (g : TicTacToeGame)
    (u : String) (y x : Int) (r : MoveSuccess) (g' : TicTacToeGame)
    (h : make_move g u y x = (.success r, g')) :
    check_winner b = referenceVerdict b ∧
    r.winner = referenceVerdict r.board ∧
    (r.is_tie = true ↔ referenceVerdict r.board = none ∧
      board_full r.board) := by
  refine ⟨check_winner_eq_ref b, ?_⟩
  unfold make_move at h
  rcases hp : g.get_player_piece u with _ | p <;>
    simp only [hp] at h <;>
    split_ifs at h <;>
    simp_all <;>
    rcases hcw : check_winner (setCell g.board y x (some p)) with _ | w <;>
    simp_all [← check_winner_eq_ref] <;>
    (obtain ⟨h1, h2⟩ := h; subst h1; simp_all)

/-- Outcome of X's first move at `(0,0)` in `gameAB`. -/
def firstMoveResult : MoveSuccess :=
  { board := setCell emptyBoard 0 0 (some .X)
    next_turn := some .O
    game_over := false
    winner := none
    is_tie := false }

/-- State of `gameAB` after X's first move at `(0,0)`. -/
def gameAB1 : TicTacToeGame :=
  { gameAB with board := setCell emptyBoard 0 0 (some .X), turn := .O }

theorem move_verdict_matches_reference_witness :
    check_winner emptyBoard = referenceVerdict emptyBoard ∧
    firstMoveResult.winner = referenceVerdict firstMoveResult.board ∧
    (firstMoveResult.is_tie = true ↔
      referenceVerdict firstMoveResult.board = none ∧
      board_full firstMoveResult.board) :=
  move_verdict_matches_reference emptyBoard gameAB "p1" 0 0
    firstMoveResult gameAB1 (by decide)

/-! ### Sequences of valid moves (turn alternation) -/

/-- One requested move: the caller's uuid and the coordinates. -/
structure MoveReq where
  uuid : String
  y : Int
  x : Int

/-- Apply a list of move requests with `make_move`, requiring every one of
them to succeed; returns the sequence of marks that moved (in order)
together with the final game state. -/
def applyMoves (g : TicTacToeGame) :
    List MoveReq → Option (List Piece × TicTacToeGame)
  | [] => some ([], g)
  | m :: ms =>
    match make_move g m.uuid m.y m.x with
    | (.success _, g') =>
      (applyMoves g' ms).map (fun pr => (g.turn :: pr.1, pr.2))
    | (.failure _, _) => none

theorem make_move_success_facts {g : TicTacToeGame} {u : String}
    {y x : Int} {r : MoveSuccess} {g' : TicTacToeGame}
    (h : make_move g u y x = (.success r, g')) :
    g.status = .active ∧ g.get_player_piece u = some g.turn ∧
    g'.playerX = g.playerX ∧ g'.playerO = g.playerO ∧
    ((g'.status = .finished ∧ g'.turn = g.turn) ∨
      (g'.status = .active ∧ g'.turn = g.turn.other)) := by
  unfold make_move at h
  rcases hp : g.get_player_piece u with _ | p <;>
    simp only [hp] at h <;>
    split_ifs at h <;>
    simp_all <;>
    rcases hcw : check_winner (setCell g.board y x (some p)) with _ | w <;>
    simp_all <;>
    (obtain ⟨h1, h2⟩ := h; subst h2; simp_all)

theorem applyMoves_cons {g : TicTacToeGame} {m : MoveReq} {ms : List MoveReq}
    {ps : List Piece} {gf : TicTacToeGame}
    (h : applyMoves g (m :: ms) = some (ps, gf)) :
    ∃ r g1 ps', make_move g m.uuid m.y m.x = (.success r, g1) ∧
      applyMoves g1 ms = some (ps', gf) ∧ ps = g.turn :: ps' := by
  unfold applyMoves at h
  rcases hm : make_move g m.uuid m.y m.x with ⟨res, g1⟩
  rcases res with rs | r
  · rw [hm] at h; simp at h
  · rw [hm] at h
    simp only [Option.map_eq_some'] at h
    obtain ⟨pr, hrec, heq⟩ := h
    injection heq with h1 h2
    subst h1
    subst h2
    exact ⟨r, g1, pr.1, rfl, by rw [hrec], rfl⟩

theorem Piece.other_ne (p : Piece) : p.other ≠ p := by
  cases p <;> simp [Piece.other]

/-- Claim C3: over every sequence of successful (valid) moves, the moving
marks alternate strictly — each successful move is made by the other mark
than the previous one, so the same mark never moves twice in a row. -/
theorem valid_moves_alternate (ms : List MoveReq) :
    ∀ (g : TicTacToeGame) (ps : List Piece) (gf : TicTacToeGame),
      applyMoves g ms = some (ps, gf) →
      List.Chain' (fun a b => b = a.other ∧ b ≠ a) ps := by
  induction ms with
  | nil =>
    intro g ps gf h
    unfold applyMoves at h
    simp only [Option.some.injEq, Prod.mk.injEq] at h
    rw [← h.1]
    exact List.chain'_nil
  | cons m ms ih =>
    intro g ps gf h
    obtain ⟨r, g1, ps', hm, hrec, rfl⟩ := applyMoves_cons h
    have hch := ih g1 ps' gf hrec
    cases ps' with
    | nil => simp
    | cons p2 ps'' =>
      rcases ms with _ | ⟨m2, ms2⟩
      · unfold applyMoves at hrec
        simp at hrec
      · obtain ⟨r2, g2, ps2, hm2, hrec2, heq⟩ := applyMoves_cons hrec
        injection heq with e1 e2
        have hf := make_move_success_facts hm
        have hf2 := make_move_success_facts hm2
        rcases hf.2.2.2.2 with ⟨hfin, _⟩ | ⟨_, hturn⟩
        · rw [hfin] at hf2
          simp at hf2
        · rw [List.chain'_cons]
          refine ⟨⟨?_, ?_⟩, hch⟩
          · rw [e1, hturn]
          · rw [e1, hturn]
            exact Piece.other_ne g.turn

/-- State of `gameAB` after X at `(0,0)` and O at `(1,1)`. -/
def gameAB2 : TicTacToeGame :=
  { gameAB with
    board := setCell (setCell emptyBoard 0 0 (some .X)) 1 1 (some .O)
    turn := .X }

theorem valid_moves_alternate_witness :
    List.Chain' (fun a b => b = a.other ∧ b ≠ a) [Piece.X, Piece.O] :=
  valid_moves_alternate [⟨"p1", 0, 0⟩, ⟨"p2", 1, 1⟩] gameAB
    [Piece.X, Piece.O] gameAB2 (by decide)

/-! ### The session state machine: `finished` is terminal -/

theorem make_move_not_active {g : TicTacToeGame} (u : String) (y x : Int)
    (h : g.status ≠ .active) :
    make_move g u y x = (.failure .notActive, g) := by
  unfold make_move
  rw [if_pos h]

theorem make_move_players_unchanged (g : TicTacToeGame) (u : String)
    (y x : Int) :
    ((make_move g u y x).2).playerX = g.playerX ∧
    ((make_move g u y x).2).playerO = g.playerO := by
  unfold make_move
  rcases hp : g.get_player_piece u with _ | p <;>
    simp only [hp] <;>
    split_ifs <;>
    simp_all <;>
    rcases hcw : check_winner (setCell g.board y x (some p)) with _ | w <;>
    simp_all

/-- The game-level operations the server ever invokes on a session after
construction: `add_player2` (join) and `make_move`. -/
inductive GameOp
  | addP2 (u n : String)
  | move (u : String) (y x : Int)

/-- The state after one game-level operation (responses discarded). -/
def applyOp (g : TicTacToeGame) : GameOp → TicTacToeGame
  | .addP2 u n => (g.add_player2 u n).2
  | .move u y x => (make_move g u y x).2

/-- Game states reachable from a freshly constructed game by any sequence
of game-level operations. -/
def ReachableGame (g : TicTacToeGame) : Prop :=
  ∃ gid u n ops, g = List.foldl applyOp (TicTacToeGame.init gid u n) ops

theorem applyOp_preserves_invariant {g : TicTacToeGame}
    (hI : g.status = .waiting ∨ g.playerO ≠ none) (op : GameOp) :
    (applyOp g op).status = .waiting ∨ (applyOp g op).playerO ≠ none := by
  cases op with
  | addP2 u n =>
    simp only [applyOp, TicTacToeGame.add_player2]
    rcases ho : g.playerO with _ | pi
    · simp
    · simp [ho]
  | move u y x =>
    simp only [applyOp]
    rcases hI with hw | ho
    · rw [make_move_not_active u y x (by rw [hw]; simp)]
      left
      exact hw
    · right
      rw [(make_move_players_unchanged g u y x).2]
      exact ho

theorem foldl_keeps_invariant (ops : List GameOp) :
    ∀ g0 : TicTacToeGame, (g0.status = .waiting ∨ g0.playerO ≠ none) →
      ((List.foldl applyOp g0 ops).status = .waiting ∨
        (List.foldl applyOp g0 ops).playerO ≠ none) := by
  induction ops with
  | nil => intro g0 h; exact h
  | cons op ops ih =>
    intro g0 h
    exact ih _ (applyOp_preserves_invariant h op)

theorem reachable_finished_playerO {g : TicTacToeGame}
    (h : ReachableGame g) (hf : g.status = .finished) : g.playerO ≠ none := by
  obtain ⟨gid, u, n, ops, rfl⟩ := h
  rcases foldl_keeps_invariant ops (TicTacToeGame.init gid u n)
      (Or.inl rfl) with hw | ho
  · exact absurd (hf.symm.trans hw) (by simp)
  · exact ho

/-- Claim C4: once a (reachable) session is `finished`, no game operation
changes it at all — in particular its status never leaves `finished` —
and every subsequent `make_move` is rejected with the not-active error. -/
theorem finished_is_terminal (g : TicTacToeGame) (h : ReachableGame g)
    (hf : g.status = .finished) :
    (∀ u n, g.add_player2 u n = (false, g)) ∧
    (∀ u y x, make_move g u y x = (.failure .notActive, g)) ∧
    (∀ op, applyOp g op = g) := by
  have hO := reachable_finished_playerO h hf
  have hadd : ∀ u n, g.add_player2 u n = (false, g) := by
    intro u n
    unfold TicTacToeGame.add_player2
    rcases ho : g.playerO with _ | pi
    · exact absurd ho hO
    · simp
  have hmv : ∀ u y x, make_move g u y x = (.failure .notActive, g) :=
    fun u y x => make_move_not_active u y x (by rw [hf]; simp)
  refine ⟨hadd, hmv, ?_⟩
  intro op
  cases op with
  | addP2 u n =>
    simp only [applyOp]
    rw [hadd]
  | move u y x =>
    simp only [applyOp]
    rw [hmv]

/-- A finished demo game: Alice takes the top row. -/
def finishedDemoOps : List GameOp :=
  [.addP2 "p2" "Bob", .move "p1" 0 0, .move "p2" 1 0, .move "p1" 0 1,
   .move "p2" 1 1, .move "p1" 0 2]

def finishedDemo : TicTacToeGame :=
  List.foldl applyOp (TicTacToeGame.init "g1" "p1" "Alice") finishedDemoOps

theorem finished_is_terminal_witness :
    make_move finishedDemo "p2" 2 2 = (.failure .notActive, finishedDemo) :=
  (finished_is_terminal finishedDemo
    ⟨"g1", "p1", "Alice", finishedDemoOps, rfl⟩ (by decide)).2.1 "p2" 2 2

/-! ### Server shared state (`server_websocket.py`)

`CLIENTS`, `GAMES` and `AVAILABLE_GAMES` are module-level Python dicts;
they are embedded as association lists in insertion order with unique
keys.  Connection handles (websockets) are opaque and numbered by `Nat`.
Handlers run their locked regions atomically and return the frames they
hand to the transport, in order. -/

/-- One `CLIENTS` record: `{'name', 'websocket', 'current_game', 'status'}`. -/
structure ClientRecord where
  name : String
  websocket : Nat
  current_game : Option String
  status : String
deriving DecidableEq

/-- One `AVAILABLE_GAMES` entry. -/
structure OpenEntry where
  game_id : String
  player1_name : String
  player1_uuid : String
deriving DecidableEq

/-- The shared server state (lines 19-21). -/
structure ServerState where
  clients : List (String × ClientRecord)
  games : List (String × TicTacToeGame)
  available : List (String × OpenEntry)
deriving DecidableEq

/-- Dictionary lookup, `d.get(k)`. -/
def alookup {β : Type} (k : String) : List (String × β) → Option β
  | [] => none
  | (k', v) :: rest => if k' = k then some v else alookup k rest

/-- Dictionary assignment `d[k] = v`: update in place, else append. -/
def aset {β : Type} (k : String) (v : β) : List (String × β) → List (String × β)
  | [] => [(k, v)]
  | (k', v') :: rest => if k' = k then (k, v) :: rest else (k', v') :: aset k v rest

/-- Dictionary deletion `del d[k]` (keys are unique in a dict). -/
def aerase {β : Type} (k : String) (l : List (String × β)) : List (String × β) :=
  l.filter (fun kv => kv.1 != k)

theorem alookup_aset_self {β : Type} (k : String) (v : β)
    (l : List (String × β)) : alookup k (aset k v l) = some v := by
  induction l with
  | nil => simp [aset, alookup]
  | cons kv rest ih =>
    rcases kv with ⟨k', v'⟩
    by_cases h : k' = k
    · simp [aset, h, alookup]
    · simp [aset, h, alookup, ih]

theorem alookup_aset_other {β : Type} {k k' : String} (hne : k' ≠ k)
    (v : β) (l : List (String × β)) :
    alookup k' (aset k v l) = alookup k' l := by
  have hkk : k ≠ k' := fun h => hne h.symm
  induction l with
  | nil => simp [aset, alookup, hkk]
  | cons kv rest ih =>
    rcases kv with ⟨k0, v0⟩
    by_cases h : k0 = k
    · subst h
      simp [aset, alookup, hkk]
    · simp [aset, h, alookup, ih]

theorem alookup_aerase_self {β : Type} (k : String) (l : List (String × β)) :
    alookup k (aerase k l) = none := by
  induction l with
  | nil => simp [aerase, alookup]
  | cons kv rest ih =>
    rcases kv with ⟨k0, v0⟩
    by_cases h : k0 = k
    · simpa [aerase, h, alookup] using ih
    · simpa [aerase, h, alookup] using ih

theorem alookup_aerase_other {β : Type} {k k' : String} (hne : k' ≠ k)
    (l : List (String × β)) : alookup k' (aerase k l) = alookup k' l := by
  induction l with
  | nil => simp [aerase, alookup]
  | cons kv rest ih =>
    rcases kv with ⟨k0, v0⟩
    by_cases h : k0 = k
    · subst h
      have hkk : k0 ≠ k' := fun hh => hne hh.symm
      simpa [aerase, alookup, hkk] using ih
    · by_cases h' : k0 = k'
      · subst h'
        simp [aerase, alookup, hne]
      · simpa [aerase, alookup, h, h'] using ih

theorem alookup_aerase_none {β : Type} {k k' : String} {l : List (String × β)}
    (h : alookup k' l = none) : alookup k' (aerase k l) = none := by
  by_cases hk : k' = k
  · rw [hk]; exact alookup_aerase_self k l
  · rw [alookup_aerase_other hk]; exact h

theorem aerase_keys {β : Type} (k : String) (l : List (String × β)) :
    ∀ p ∈ aerase k l, p.1 ≠ k := by
  intro p hp
  have := List.of_mem_filter hp
  simpa using this

/-- Outbound messages (the JSON dicts the server sends), restricted to the
actions and fields the claims mention. -/
inductive OutMsg
  | errorMsg (message : String)
  | registered (uuid : String) (name : String)
  | rejoin_game (game_id : String)
  | available_games_update (games : List OpenEntry)
  | opponent_disconnected (game_id : String) (message : String)
deriving DecidableEq

/-- A frame handed to the transport: target connection handle, payload. -/
abbrev Sent := Nat × OutMsg

/-- Function `get_available_games_list()` (lines 91-98). -/
def get_available_games_list (s : ServerState) : List OpenEntry :=
  s.available.map (fun kv => kv.2)

/-- Function `send_message_to_client` (lines 58-70): resolve the uuid's current
websocket under the lock, then send; unknown clients are dropped. -/
def send_message_to_client (s : ServerState) (uuid : String) (m : OutMsg) :
    List Sent :=
  match alookup uuid s.clients with
  | some r => [(r.websocket, m)]
  | none => []

/-- Function `broadcast_available_games` (lines 100-115): push the open-session
list to every client whose `current_game` is `None`. -/
def broadcast_available_games (s : ServerState) : List Sent :=
  (s.clients.filter (fun kv => kv.2.current_game.isNone)).map
    (fun kv => (kv.2.websocket,
      OutMsg.available_games_update (get_available_games_list s)))

/-- Function `handle_register` (lines 127-181): validate, create or update the
client record, confirm, then either replay the held game (rejoin) or
reset membership to the lobby and send the open list.  Returns the
`registration_successful` flag, the new state and the frames sent. -/
def handle_register (s : ServerState) (ws : Nat) (client_uuid : Option String)
    (name : String) : Bool × ServerState × List Sent :=
  match client_uuid with
  | none =>
    (false, s,
     [(ws, .errorMsg "Invalid register request: missing UUID or name.")])
  | some u =>
    if u = "" ∨ name = "" then
      (false, s,
       [(ws, .errorMsg "Invalid register request: missing UUID or name.")])
    else
      let s1 : ServerState :=
        match alookup u s.clients with
        | some r =>
          let r' : ClientRecord :=
            { r with name := name, websocket := ws, status := "connected" }
          { s with clients := aset u r' s.clients }
        | none =>
          { s with clients := aset u ⟨name, ws, none, "connected"⟩ s.clients }
      let sent1 : List Sent := [(ws, .registered u name)]
      match (alookup u s1.clients).bind (fun r => r.current_game) with
      | some gid =>
        match alookup gid s1.games with
        | some _ => (true, s1, sent1 ++ [(ws, .rejoin_game gid)])
        | none =>
          let s2 : ServerState :=
            match alookup u s1.clients with
            | some r =>
              { s1 with clients := aset u { r with current_game := none } s1.clients }
            | none => s1
          (true, s2,
           sent1 ++ [(ws, .available_games_update (get_available_games_list s2))])
      | none =>
        let s2 : ServerState :=
          match alookup u s1.clients with
          | some r =>
            { s1 with clients := aset u { r with current_game := none } s1.clients }
          | none => s1
        (true, s2,
         sent1 ++ [(ws, .available_games_update (get_available_games_list s2))])

/-- A `register` request's fields (absent fields are `none`). -/
structure RegisterMsg where
  uuid : Option String
  name : Option String

/-- The `register` path of `process_message` (lines 402-405, and
`handle_client` line 491): the `name` field defaults to `'Anonymous'` when
absent, then `handle_register` runs. -/
def process_register (s : ServerState) (ws : Nat) (msg : RegisterMsg) :
    Bool × ServerState × List Sent :=
  handle_register s ws msg.uuid (msg.name.getD "Anonymous")

/-- The player-reset loop body of `cleanup_game` (lines 342-348) for one
slot: if the slot is taken and that uuid is registered, clear its
`current_game`. -/
def resetPlayer (cs : List (String × ClientRecord)) (p : Option PlayerInfo) :
    List (String × ClientRecord) :=
  match p with
  | none => cs
  | some pi =>
    match alookup pi.uuid cs with
    | some r => aset pi.uuid { r with current_game := none } cs
    | none => cs

/-- Function `cleanup_game` (lines 330-363): under the lock, reset the
participants' `current_game` and delete the game from `GAMES` and
`AVAILABLE_GAMES`; then broadcast the open list.  A non-existent id is a
no-op (no broadcast). -/
def cleanup_game (s : ServerState) (gid : String) : ServerState × List Sent :=
  match alookup gid s.games with
  | none => (s, [])
  | some g =>
    let clients1 := resetPlayer (resetPlayer s.clients g.playerX) g.playerO
    let s1 : ServerState :=
      { clients := clients1
        games := aerase gid s.games
        available := aerase gid s.available }
    (s1, broadcast_available_games s1)

/-- The opponent scan of `cleanup_client` (lines 539-543), `'O'` slot
part: the first listed player whose uuid differs from `u`. -/
def opponentFromO (g : TicTacToeGame) (u : String) : Option String :=
  match g.playerO with
  | some q => if q.uuid ≠ u then some q.uuid else none
  | none => none

/-- The opponent scan of `cleanup_client` (lines 539-543): pieces are
visited in dict order `'X'` then `'O'`; the first occupied slot whose
uuid differs from `u` wins. -/
def findOpponent (g : TicTacToeGame) (u : String) : Option String :=
  match g.playerX with
  | some p => if p.uuid ≠ u then some p.uuid else opponentFromO g u
  | none => opponentFromO g u

/-- The leaving-name scan of `cleanup_client` (lines 563-570), `'O'` slot
part. -/
def leavingNameFromO (g : TicTacToeGame) (u : String) : String :=
  match g.playerO with
  | some q => if q.uuid = u then q.name else "Opponent"
  | none => "Opponent"

/-- The leaving-name scan of `cleanup_client` (lines 563-570): the display
name recorded in the game for uuid `u`, default `"Opponent"`. -/
def leavingName (g : TicTacToeGame) (u : String) : String :=
  match g.playerX with
  | some p => if p.uuid = u then p.name else leavingNameFromO g u
  | none => leavingNameFromO g u

/-- The first `async with STATE_LOCK` region of `cleanup_client`
(lines 525-554): if the client is registered and holds a game that
exists, mark that game `finished`; in every registered case delete the
client's record. -/
def cleanup_client_locked (s : ServerState) (u : String) : ServerState :=
  match alookup u s.clients with
  | none => s
  | some r =>
    match r.current_game with
    | some gid =>
      match alookup gid s.games with
      | some g =>
        { s with
          games := aset gid { g with status := GameStatus.finished } s.games
          clients := aerase u s.clients }
      | none => { s with clients := aerase u s.clients }
    | none => { s with clients := aerase u s.clients }

/-- Function `cleanup_client` (lines 522-582): the locked region above, then —
when the held game exists — the opponent notification (the departed
player's name is read back from the finished game still in `GAMES`)
followed by `cleanup_game`; otherwise just a lobby broadcast.  An
unregistered uuid is a no-op. -/
def cleanup_client (s : ServerState) (u : String) : ServerState × List Sent :=
  match alookup u s.clients with
  | none => (s, [])
  | some r =>
    let s1 := cleanup_client_locked s u
    match r.current_game with
    | some gid =>
      match alookup gid s.games with
      | some g =>
        let lname : String :=
          match alookup gid s1.games with
          | some g2 => leavingName g2 u
          | none => "Opponent"
        let msgs : List Sent :=
          match findOpponent g u with
          | some ou =>
            send_message_to_client s1 ou
              (.opponent_disconnected gid (lname ++ " disconnected. Game ended."))
          | none => []
        let res := cleanup_game s1 gid
        (res.1, msgs ++ res.2)
      | none => (s1, broadcast_available_games s1)
    | none => (s1, broadcast_available_games s1)

/-- Claim C5: re-registering an existing client id with a new connection
handle succeeds, replaces the stored handle (so routing subsequently uses
the new one), and leaves the session membership field unchanged.  The
hypothesis `hwf` is the server's invariant that a held session id refers
to an existing game. -/
theorem reregister_rebinds_connection (s : ServerState) (ws' : Nat)
    (u name' : String) (r : ClientRecord)
    (hu : u ≠ "") (hn : name' ≠ "")
    (hr : alookup u s.clients = some r)
    (hwf : r.current_game = none ∨
      ∃ gid, r.current_game = some gid ∧ (alookup gid s.games).isSome) :
    (handle_register s ws' (some u) name').1 = true ∧
    (alookup u (handle_register s ws' (some u) name').2.1.clients).map
      (fun c => c.websocket) = some ws' ∧
    (alookup u (handle_register s ws' (some u) name').2.1.clients).bind
      (fun c => c.current_game) = r.current_game ∧
    (∀ m, send_message_to_client (handle_register s ws' (some u) name').2.1 u m
      = [(ws', m)]) := by
  have hcond : ¬(u = "" ∨ name' = "") := by simp [hu, hn]
  rcases hwf with hcg | ⟨gid, hcg, hex⟩
  · simp only [handle_register, hr, if_neg hcond, alookup_aset_self,
      Option.bind_some, hcg, send_message_to_client]
    simp [alookup_aset_self, hcg]
  · obtain ⟨g, hg⟩ := Option.isSome_iff_exists.mp hex
    simp only [handle_register, hr, if_neg hcond, alookup_aset_self,
      Option.bind_some, hcg, hg, send_message_to_client]
    simp [alookup_aset_self, hcg, hg]

/-- A one-client lobby state. -/
def demoLobby : ServerState :=
  ⟨[("c1", ⟨"Alice", 1, none, "connected"⟩)], [], []⟩

theorem reregister_rebinds_connection_witness :
    (handle_register demoLobby 2 (some "c1") "Alice").1 = true ∧
    (alookup "c1" (handle_register demoLobby 2 (some "c1") "Alice").2.1.clients).map
      (fun c => c.websocket) = some 2 ∧
    (alookup "c1" (handle_register demoLobby 2 (some "c1") "Alice").2.1.clients).bind
      (fun c => c.current_game) = none ∧
    (∀ m, send_message_to_client
      (handle_register demoLobby 2 (some "c1") "Alice").2.1 "c1" m = [(2, m)]) :=
  reregister_rebinds_connection demoLobby 2 "c1" "Alice"
    ⟨"Alice", 1, none, "connected"⟩ (by decide) (by decide) (by decide)
    (Or.inl rfl)

theorem resetPlayer_none {cs : List (String × ClientRecord)} {u : String}
    (h : alookup u cs = none) (p : Option PlayerInfo) :
    alookup u (resetPlayer cs p) = none := by
  cases p with
  | none => simpa [resetPlayer] using h
  | some pi =>
    simp only [resetPlayer]
    rcases hq : alookup pi.uuid cs with _ | r2
    · exact h
    · have hne : u ≠ pi.uuid := by
        intro he
        rw [he, hq] at h
        simp at h
      rw [alookup_aset_other hne]
      exact h

/-- Claim C10: `cleanup_client` on a registered client always deletes the
client's registry record; when the client held a session that exists, the
locked region first marks it `finished` and the tail then removes it from
both the game map and the open-session map. -/
theorem cleanup_client_removes (s : ServerState) (u : String)
    (r : ClientRecord) (hr : alookup u s.clients = some r) :
    alookup u (cleanup_client s u).1.clients = none ∧
    (∀ gid g, r.current_game = some gid → alookup gid s.games = some g →
      alookup gid (cleanup_client_locked s u).games =
        some { g with status := GameStatus.finished } ∧
      alookup gid (cleanup_client s u).1.games = none ∧
      alookup gid (cleanup_client s u).1.available = none) := by
  constructor
  · rcases hcg : r.current_game with _ | gid
    · simp only [cleanup_client, hr, hcg, cleanup_client_locked]
      exact alookup_aerase_self u s.clients
    · rcases hg : alookup gid s.games with _ | g
      · simp only [cleanup_client, hr, hcg, hg, cleanup_client_locked]
        exact alookup_aerase_self u s.clients
      · simp only [cleanup_client, hr, hcg, hg, cleanup_client_locked,
          cleanup_game, alookup_aset_self]
        exact resetPlayer_none (resetPlayer_none
          (alookup_aerase_self u s.clients) _) _
  · intro gid g hcg hg
    refine ⟨?_, ?_, ?_⟩
    · simp only [cleanup_client_locked, hr, hcg, hg, alookup_aset_self]
    · simp only [cleanup_client, hr, hcg, hg, cleanup_client_locked,
        cleanup_game, alookup_aset_self]
      exact alookup_aerase_self gid _
    · simp only [cleanup_client, hr, hcg, hg, cleanup_client_locked,
        cleanup_game, alookup_aset_self]
      exact alookup_aerase_self gid _

theorem cleanup_client_removes_witness :
    alookup "p1" (cleanup_client
      ⟨[("p1", ⟨"Alice", 1, some "g1", "connected"⟩),
        ("p2", ⟨"Bob", 2, some "g1", "connected"⟩)],
       [("g1", gameAB)], []⟩ "p1").1.clients = none ∧
    alookup "g1" (cleanup_client_locked
      ⟨[("p1", ⟨"Alice", 1, some "g1", "connected"⟩),
        ("p2", ⟨"Bob", 2, some "g1", "connected"⟩)],
       [("g1", gameAB)], []⟩ "p1").games =
      some { gameAB with status := GameStatus.finished } ∧
    alookup "g1" (cleanup_client
      ⟨[("p1", ⟨"Alice", 1, some "g1", "connected"⟩),
        ("p2", ⟨"Bob", 2, some "g1", "connected"⟩)],
       [("g1", gameAB)], []⟩ "p1").1.games = none ∧
    alookup "g1" (cleanup_client
      ⟨[("p1", ⟨"Alice", 1, some "g1", "connected"⟩),
        ("p2", ⟨"Bob", 2, some "g1", "connected"⟩)],
       [("g1", gameAB)], []⟩ "p1").1.available = none := by
  have h := cleanup_client_removes
    ⟨[("p1", ⟨"Alice", 1, some "g1", "connected"⟩),
      ("p2", ⟨"Bob", 2, some "g1", "connected"⟩)],
     [("g1", gameAB)], []⟩ "p1"
    ⟨"Alice", 1, some "g1", "connected"⟩ (by decide)
  obtain ⟨h1, h2⟩ := h
  obtain ⟨a, b, c⟩ := h2 "g1" gameAB rfl (by decide)
  exact ⟨h1, a, b, c⟩

/-- Claim C6: when a participant of a live session disconnects, the locked
region marks the session `finished` regardless of board state, the
remaining participant is sent an opponent-left event carrying the
departed player's display name, the session is removed from the game map
and the open-session map, and every subsequent open-session listing
excludes it. -/
theorem opponent_notified_on_abandon
    (s : ServerState) (u gid : String) (r orec : ClientRecord)
    (g : TicTacToeGame) (px po : PlayerInfo)
    (hr : alookup u s.clients = some r)
    (hcg : r.current_game = some gid)
    (hg : alookup gid s.games = some g)
    (hX : g.playerX = some px) (hO : g.playerO = some po)
    (hne : px.uuid ≠ po.uuid)
    (hu : u = px.uuid ∨ u = po.uuid)
    (hopp : alookup (if u = px.uuid then po.uuid else px.uuid) s.clients =
      some orec)
    (havail : ∀ e ∈ s.available, e.2.game_id = e.1) :
    alookup gid (cleanup_client_locked s u).games =
      some { g with status := GameStatus.finished } ∧
    (orec.websocket,
      OutMsg.opponent_disconnected gid
        ((if u = px.uuid then px.name else po.name) ++
          " disconnected. Game ended.")) ∈ (cleanup_client s u).2 ∧
    alookup gid (cleanup_client s u).1.games = none ∧
    alookup gid (cleanup_client s u).1.available = none ∧
    (∀ e ∈ get_available_games_list (cleanup_client s u).1,
      e.game_id ≠ gid) := by
  have hpo_ne : po.uuid ≠ px.uuid := fun h => hne h.symm
  rcases hu with hu | hu
  · subst hu
    have hopp2 : alookup po.uuid s.clients = some orec := by simpa using hopp
    refine ⟨?_, ?_, ?_, ?_, ?_⟩
    · simp only [cleanup_client_locked, hr, hcg, hg, alookup_aset_self]
    · simp only [cleanup_client, hr, hcg, hg, cleanup_client_locked,
        alookup_aset_self, findOpponent, hX, hO, opponentFromO, leavingName,
        leavingNameFromO, send_message_to_client]
      simp [hpo_ne, alookup_aerase_other hpo_ne, hopp2, hX]
    · simp only [cleanup_client, hr, hcg, hg, cleanup_client_locked,
        cleanup_game, alookup_aset_self]
      exact alookup_aerase_self gid _
    · simp only [cleanup_client, hr, hcg, hg, cleanup_client_locked,
        cleanup_game, alookup_aset_self]
      exact alookup_aerase_self gid _
    · intro e he
      simp only [cleanup_client, hr, hcg, hg, cleanup_client_locked,
        cleanup_game, alookup_aset_self, get_available_games_list] at he
      obtain ⟨p, hp, rfl⟩ := List.mem_map.mp he
      have hk := aerase_keys gid _ p hp
      have h2 := havail p (List.mem_of_mem_filter hp)
      rw [h2]
      exact hk
  · subst hu
    have hopp2 : alookup px.uuid s.clients = some orec := by
      simpa [hpo_ne] using hopp
    refine ⟨?_, ?_, ?_, ?_, ?_⟩
    · simp only [cleanup_client_locked, hr, hcg, hg, alookup_aset_self]
    · simp only [cleanup_client, hr, hcg, hg, cleanup_client_locked,
        alookup_aset_self, findOpponent, hX, hO, opponentFromO, leavingName,
        leavingNameFromO, send_message_to_client]
      simp [hne, hpo_ne, alookup_aerase_other hne, hopp2, hX, hO]
    · simp only [cleanup_client, hr, hcg, hg, cleanup_client_locked,
        cleanup_game, alookup_aset_self]
      exact alookup_aerase_self gid _
    · simp only [cleanup_client, hr, hcg, hg, cleanup_client_locked,
        cleanup_game, alookup_aset_self]
      exact alookup_aerase_self gid _
    · intro e he
      simp only [cleanup_client, hr, hcg, hg, cleanup_client_locked,
        cleanup_game, alookup_aset_self, get_available_games_list] at he
      obtain ⟨p, hp, rfl⟩ := List.mem_map.mp he
      have hk := aerase_keys gid _ p hp
      have h2 := havail p (List.mem_of_mem_filter hp)
      rw [h2]
      exact hk

/-- A mid-game state: Alice and Bob registered and bound to game `g1`. -/
def demoMidGame : ServerState :=
  ⟨[("p1", ⟨"Alice", 1, some "g1", "connected"⟩),
    ("p2", ⟨"Bob", 2, some "g1", "connected"⟩)],
   [("g1", gameAB)], []⟩

theorem opponent_notified_on_abandon_witness :
    alookup "g1" (cleanup_client_locked demoMidGame "p1").games =
      some { gameAB with status := GameStatus.finished } ∧
    (2, OutMsg.opponent_disconnected "g1"
      ("Alice" ++ " disconnected. Game ended."))
      ∈ (cleanup_client demoMidGame "p1").2 ∧
    alookup "g1" (cleanup_client demoMidGame "p1").1.games = none ∧
    alookup "g1" (cleanup_client demoMidGame "p1").1.available = none ∧
    (∀ e ∈ get_available_games_list (cleanup_client demoMidGame "p1").1,
      e.game_id ≠ "g1") :=
  opponent_notified_on_abandon demoMidGame "p1" "g1"
    ⟨"Alice", 1, some "g1", "connected"⟩ ⟨"Bob", 2, some "g1", "connected"⟩
    gameAB ⟨"p1", "Alice"⟩ ⟨"p2", "Bob"⟩
    (by decide) rfl (by decide) rfl rfl (by decide) (Or.inl rfl) (by decide)
    (by intro e he; simp [demoMidGame] at he)

/-- Claim C8 counterexample: a register request whose `name` field is
absent is not rejected — the name silently defaults to `'Anonymous'`,
registration succeeds and a client record is created. -/
theorem register_absent_name_counterexample :
    (process_register ⟨[], [], []⟩ 7 ⟨some "c1", none⟩).1 = true ∧
    alookup "c1"
      (process_register ⟨[], [], []⟩ 7 ⟨some "c1", none⟩).2.1.clients =
      some ⟨"Anonymous", 7, none, "connected"⟩ := by
  constructor <;> rfl

/-- Claim C8 (amended): registration is rejected with the invalid-identity
error reply and no state change exactly when the client id is absent or
empty or the name field is present and empty; an absent name defaults to
`'Anonymous'`, and registration succeeds whenever the id is non-empty and
the effective name is non-empty. -/
theorem register_validation (s : ServerState) (ws : Nat) (msg : RegisterMsg) :
    ((msg.uuid = none ∨ msg.uuid = some "" ∨ msg.name = some "") →
      process_register s ws msg =
        (false, s,
         [(ws, .errorMsg "Invalid register request: missing UUID or name.")])) ∧
    (∀ u, msg.uuid = some u → u ≠ "" → msg.name.getD "Anonymous" ≠ "" →
      (process_register s ws msg).1 = true) := by
  constructor
  · rintro (hmu | hmu | hmn)
    · simp [process_register, hmu, handle_register]
    · simp [process_register, hmu, handle_register]
    · rcases hmu2 : msg.uuid with _ | u
      · simp [process_register, hmu2, handle_register]
      · simp [process_register, hmu2, hmn, handle_register]
  · intro u hmu hu hname
    simp only [process_register, hmu, handle_register]
    rw [if_neg (by simp [hu, hname])]
    rcases h1 : alookup u s.clients with _ | r
    · simp [h1, alookup_aset_self]
    · rcases h2 : r.current_game with _ | gid
      · simp [h1, h2, alookup_aset_self]
      · rcases h3 : alookup gid s.games with _ | g
        · simp [h1, h2, h3, alookup_aset_self]
        · simp [h1, h2, h3, alookup_aset_self]

theorem register_validation_witness :
    process_register (⟨[], [], []⟩ : ServerState) 5 ⟨some "", some "Bob"⟩ =
      (false, (⟨[], [], []⟩ : ServerState),
       [(5, .errorMsg "Invalid register request: missing UUID or name.")]) ∧
    (process_register (⟨[], [], []⟩ : ServerState) 6
      ⟨some "c9", some "Bob"⟩).1 = true :=
  ⟨(register_validation ⟨[], [], []⟩ 5 ⟨some "", some "Bob"⟩).1
      (Or.inr (Or.inl rfl)),
   (register_validation ⟨[], [], []⟩ 6 ⟨some "c9", some "Bob"⟩).2 "c9" rfl
      (by decide) (by decide)⟩

/-! ### Session identifier space (C9)

`handle_create_game` (line 198) draws `game_id = str(sys_uuid.uuid4())[:8]`:
the first 8 characters of the canonical UUID string, which are 8 lowercase
hexadecimal digits. -/

/-- The sixteen characters a canonical uuid hex digit can be. -/
def hexDigits : List Char := "0123456789abcdef".toList

def isHexDigit (c : Char) : Prop := c ∈ hexDigits

instance (c : Char) : Decidable (isHexDigit c) := by
  unfold isHexDigit
  infer_instance

/-- Python `str(sys_uuid.uuid4())[:8]` (line 198), on the uuid's character
sequence. -/
def genGameId (uuidStr : List Char) : List Char := uuidStr.take 8

/-- The values `genGameId` can produce on uuid strings: sequences of
exactly 8 hex characters. -/
def validGameId (l : List Char) : Prop :=
  l.length = 8 ∧ ∀ c ∈ l, isHexDigit c

theorem genGameId_valid (u : List Char) (hlen : 8 ≤ u.length)
    (hhex : ∀ c ∈ u.take 8, isHexDigit c) : validGameId (genGameId u) := by
  constructor
  · simp [genGameId, List.length_take, Nat.min_eq_left hlen]
  · exact hhex

/-- Read each of the 8 id characters as its hex value. -/
def encodeGameId (l : { l : List Char // validGameId l }) : Fin 8 → Fin 16 :=
  fun i =>
    ⟨hexDigits.indexOf (l.1.get ⟨i.1, by rw [l.2.1]; exact i.2⟩),
     by
       have hmem : l.1.get ⟨i.1, by rw [l.2.1]; exact i.2⟩ ∈ l.1 :=
         List.get_mem l.1 i.1 (by rw [l.2.1]; exact i.2)
       have hm : isHexDigit (l.1.get ⟨i.1, by rw [l.2.1]; exact i.2⟩) :=
         l.2.2 _ hmem
       have h16 : hexDigits.length = 16 := rfl
       rw [← h16]
       exact List.indexOf_lt_length.mpr hm⟩

theorem encodeGameId_injective : Function.Injective encodeGameId := by
  intro a b hab
  apply Subtype.ext
  apply List.ext_get (by rw [a.2.1, b.2.1])
  intro n h1 h2
  have hn8 : n < 8 := by rw [← a.2.1]; exact h1
  have hfun := congrArg Fin.val (congrFun hab ⟨n, hn8⟩)
  have hma : a.1.get ⟨n, h1⟩ ∈ hexDigits :=
    a.2.2 _ (List.get_mem a.1 n h1)
  have hmb : b.1.get ⟨n, h2⟩ ∈ hexDigits :=
    b.2.2 _ (List.get_mem b.1 n h2)
  exact (List.indexOf_inj hma hmb).mp (by simpa [encodeGameId] using hfun)

theorem sessionIdSpace_le :
    Nat.card { l : List Char // validGameId l } ≤ 16 ^ 8 := by
  have h := Nat.card_le_card_of_injective encodeGameId encodeGameId_injective
  have hcard : Nat.card (Fin 8 → Fin 16) = 16 ^ 8 := by
    rw [Nat.card_eq_fintype_card]
    simp [Fintype.card_fun]
  rw [hcard] at h
  exact h

/-- Claim C9 counterexample: the space of session identifiers the
generator can produce has fewer than `2^48` elements, so the ids carry
under 48 bits of randomness. -/
theorem session_id_under_48_bits :
    Nat.card { l : List Char // validGameId l } < 2 ^ 48 :=
  lt_of_le_of_lt sessionIdSpace_le (by norm_num)

/-- Claim C9 (amended): every generated session id is one of the 8-hex-
character strings, a space of at most `16^8 = 2^32` values (32 bits). -/
theorem session_id_space_32_bits :
    (∀ u : List Char, 8 ≤ u.length → (∀ c ∈ u.take 8, isHexDigit c) →
      validGameId (genGameId u)) ∧
    Nat.card { l : List Char // validGameId l } ≤ 2 ^ 32 :=
  ⟨genGameId_valid, by
    calc Nat.card { l : List Char // validGameId l } ≤ 16 ^ 8 :=
        sessionIdSpace_le
      _ = 2 ^ 32 := by norm_num⟩

theorem session_id_space_32_bits_witness :
    validGameId (genGameId
      ['d', 'e', 'a', 'd', 'b', 'e', 'e', 'f', '-', '1', '2']) ∧
    Nat.card { l : List Char // validGameId l } ≤ 2 ^ 32 :=
  ⟨session_id_space_32_bits.1 _ (by decide) (by decide),
   session_id_space_32_bits.2⟩

/-! ### Lock discipline of the lobby handlers (C7)

`handle_create_game` (lines 183-218) and `handle_join_game`
(lines 220-270) each run one `async with STATE_LOCK` region.  The traces
below record, in program order, the lock acquisition/release and every
awaited outbound send of each control-flow branch, read off the source.
`send_message_to_client` itself re-acquires `STATE_LOCK`, so a send event
inside the region is a self-deadlock of the non-reentrant lock. -/

/-- One control-flow event: acquire/release of `STATE_LOCK`, or an
awaited outbound send. -/
inductive LockEv
  | acquire
  | release
  | send
deriving DecidableEq, Repr

/-- Control-flow branches of `handle_create_game`. -/
inductive CreateBranch
  | notRegistered   -- line 189: unknown client, silent return
  | alreadyInGame   -- lines 192-195: error reply awaited inside the region
  | success         -- lines 197-218: mutate, exit region, then send twice

/-- Event trace of `handle_create_game`, by branch (the `async with`
region always releases on exit, including early `return`). -/
def create_game_events : CreateBranch → List LockEv
  | .notRegistered => [.acquire, .release]
  | .alreadyInGame => [.acquire, .send, .release]
  | .success => [.acquire, .release, .send, .send]

/-- Control-flow branches of `handle_join_game`. -/
inductive JoinBranch
  | notRegistered   -- line 226: unknown client, silent return
  | alreadyInGame   -- lines 229-232: one reply inside the region
  | gameNotFound    -- lines 236-241: two replies inside the region
  | addFailed       -- lines 254-259: two replies inside the region
  | success         -- lines 243-270: mutate, exit region, then broadcast

/-- Event trace of `handle_join_game`, by branch. -/
def join_game_events : JoinBranch → List LockEv
  | .notRegistered => [.acquire, .release]
  | .alreadyInGame => [.acquire, .send, .release]
  | .gameNotFound => [.acquire, .send, .send, .release]
  | .addFailed => [.acquire, .send, .send, .release]
  | .success => [.acquire, .release, .send, .send]

/-- Does every send of the trace happen while the exclusion region is
free?  `d` is the number of acquisitions currently held. -/
def sendsOutsideLock : Nat → List LockEv → Bool
  | _, [] => true
  | d, .acquire :: es => sendsOutsideLock (d + 1) es
  | d, .release :: es => sendsOutsideLock (d - 1) es
  | d, .send :: es => decide (d = 0) && sendsOutsideLock d es

/-- Claim C7 fails on the code: in `handle_join_game`'s game-not-found
branch — reachable by a lobby client joining an unknown id — and in
`handle_create_game`'s already-in-game branch, error replies are awaited
while `STATE_LOCK` is held (the success paths do send after release). -/
theorem lobby_handlers_send_inside_lock :
    sendsOutsideLock 0 (join_game_events .gameNotFound) = false ∧
    sendsOutsideLock 0 (create_game_events .alreadyInGame) = false ∧
    sendsOutsideLock 0 (join_game_events .success) = true ∧
    sendsOutsideLock 0 (create_game_events .success) = true := by
  decide
